import Mathlib

/-!
# Verification of the wind-chimes OpenAI chat client (`openai/chat.go`)

Shallow embedding of the `Chat` session type and its operations.

Modelling decisions, all read off the Go source:
* The `sync.Map` field `data` (string keys, `interface x` values) is an
  association list `List (String × GoValue)`; `Store` replaces the first
  binding of the key or appends a fresh one, `Load` reads the first binding.
  Reachable states never hold a duplicate key, so this is exactly a Go map.
* The `atomic.Value` field `key` is `Option String`: `none` until the first
  `Store`, after which `Load` yields the stored string.  A Go type assertion
  `v.(string)` on a `nil` interface panics; panics are an explicit
  constructor of the `Outcome` type.
* The `sync.RWMutex` field `mutex` is modelled by the count `readers` of
  read locks currently held: `RLock` increments it, `RUnlock` decrements it.
  The write lock taken by `addMessage` is balanced (acquired and released
  inside the call via `defer`), so it leaves no trace in the state.
* IEEE-754 `float64` parameter values are carried opaquely by bit pattern:
  the client stores and serializes them, it never computes with them.
* Everything outside the session — `json.Marshal`, `http.NewRequest`,
  `http.Client.Do`, `io.ReadAll`, `json.Unmarshal` — is a structure `Env`
  of stage functions, each returning `Except` exactly where the Go
  collaborator returns `(value, error)`.
-/

/-- A `float64` value carried by its bit pattern; the client performs no
arithmetic on floats, it only stores and serializes them. -/
structure Float64 where
  bits : Nat
deriving Repr, DecidableEq

/-- `Message` from chat.go: one conversation turn.  In `data` the Go code
stores each turn as a `map[string]string` holding exactly the keys `role`
and `content`, which this structure represents. -/
structure Message where
  role : String
  content : String
deriving Repr, DecidableEq

/-- `Usage` from chat.go: token accounting of one completion. -/
structure Usage where
  promptTokens : Int
  completionTokens : Int
  totalTokens : Int
deriving Repr, DecidableEq

/-- `Choice` from chat.go: one candidate completion. -/
structure Choice where
  index : Int
  msg : Message
  finishReason : String
deriving Repr, DecidableEq

/-- `ChatResponse` from chat.go.  The Go field `Choices []Choice` is a
slice that `json.Unmarshal` leaves `nil` when the JSON key is absent and
sets to an empty non-nil slice on `"choices": []`; `Option (List Choice)`
keeps that distinction (`none` = nil slice). -/
structure ChatResponse where
  id : String
  object : String
  created : Int
  choices : Option (List Choice)
  usages : Usage
deriving Repr, DecidableEq

/-- The dynamic values the Go code stores into the `sync.Map` under
`interface x`: strings, float64s, ints, bools, `[]string`,
`map[string]int` and `[]map[string]string` (the message history). -/
inductive GoValue where
  | str (s : String)
  | float (f : Float64)
  | int (n : Int)
  | bool (b : Bool)
  | strList (l : List String)
  | intMap (m : List (String × Int))
  | msgList (l : List Message)
deriving Repr, DecidableEq

abbrev DataMap := List (String × GoValue)

/-- `sync.Map.Load`: the first binding of the key, if any. -/
def mapLoad (d : DataMap) (k : String) : Option GoValue :=
  match d with
  | [] => none
  | (k', v) :: rest => if k' = k then some v else mapLoad rest k

/-- `sync.Map.Store`: replace the first binding of the key, or append a
fresh binding when the key is absent. -/
def mapStore (d : DataMap) (k : String) (v : GoValue) : DataMap :=
  match d with
  | [] => [(k, v)]
  | (k', v') :: rest =>
      if k' = k then (k, v) :: rest else (k', v') :: mapStore rest k v

/-- The keys of the map, in binding order. -/
def keysOf (d : DataMap) : List String := d.map Prod.fst

/-- `Chat` from chat.go: request data, secret key, RW mutex (modelled by
the count of read locks currently held). -/
structure Chat where
  data : DataMap
  key : Option String
  readers : Nat
deriving Repr, DecidableEq

/-- A zero-value `Chat` as Go's `&openai.Chat{}` produces it. -/
def freshChat : Chat := { data := [], key := none, readers := 0 }

/-- `SetAuthorizationKey`: stores the key and, as a side effect, stores
the model identifier. -/
def SetAuthorizationKey (c : Chat) (key : String) : Chat :=
  { c with key := some key,
           data := mapStore c.data "model" (.str "gpt-3.5-turbo") }

/-- `addMessage`: under the write lock, initialize the `"messages"` entry
when absent, re-load it, assert it to `[]map[string]string`, append the
new turn and store the result back.  `none` models the panic of the type
assertion `val.([]map[string]string)` when the loaded value has another
type (unreachable from the API, which only ever stores `msgList` there). -/
def addMessage (c : Chat) (role content : String) : Option Chat :=
  let d := match mapLoad c.data "messages" with
           | some _ => c.data
           | none => mapStore c.data "messages" (.msgList [])
  match mapLoad d "messages" with
  | some (.msgList msgs) =>
      some { c with data := mapStore d "messages"
                      (.msgList (msgs ++ [{ role := role, content := content }])) }
  | _ => none

/-- `AddMessageAsUser`. -/
def AddMessageAsUser (c : Chat) (content : String) : Option Chat :=
  addMessage c "user" content

/-- `AddMessageAsSystem`. -/
def AddMessageAsSystem (c : Chat) (content : String) : Option Chat :=
  addMessage c "system" content

/-- `AddMessageAsAssistant`. -/
def AddMessageAsAssistant (c : Chat) (content : String) : Option Chat :=
  addMessage c "assistant" content

/-- `SetTemperature`. -/
def SetTemperature (c : Chat) (temperature : Float64) : Chat :=
  { c with data := mapStore c.data "temperature" (.float temperature) }

/-- `SetTopP`. -/
def SetTopP (c : Chat) (topP : Float64) : Chat :=
  { c with data := mapStore c.data "top_p" (.float topP) }

/-- `SetN`. -/
def SetN (c : Chat) (n : Int) : Chat :=
  { c with data := mapStore c.data "n" (.int n) }

/-- `SetStream`. -/
def SetStream (c : Chat) (stream : Bool) : Chat :=
  { c with data := mapStore c.data "stream" (.bool stream) }

/-- `SetStopStr`. -/
def SetStopStr (c : Chat) (stop : String) : Chat :=
  { c with data := mapStore c.data "stop" (.str stop) }

/-- `SetStopArr`. -/
def SetStopArr (c : Chat) (stop : List String) : Chat :=
  { c with data := mapStore c.data "stop" (.strList stop) }

/-- `SetMaxTokens`. -/
def SetMaxTokens (c : Chat) (maxTokens : Int) : Chat :=
  { c with data := mapStore c.data "max_tokens" (.int maxTokens) }

/-- `SetPresencePenalty`. -/
def SetPresencePenalty (c : Chat) (presencePenalty : Float64) : Chat :=
  { c with data := mapStore c.data "presence_penalty" (.float presencePenalty) }

/-- `SetFrequencyPenalty`. -/
def SetFrequencyPenalty (c : Chat) (frequencyPenalty : Float64) : Chat :=
  { c with data := mapStore c.data "frequency_penalty" (.float frequencyPenalty) }

/-- `SetLogitBias`. -/
def SetLogitBias (c : Chat) (logitBias : List (String × Int)) : Chat :=
  { c with data := mapStore c.data "logit_bias" (.intMap logitBias) }

/-- `SetUser`. -/
def SetUser (c : Chat) (user : String) : Chat :=
  { c with data := mapStore c.data "user" (.str user) }

/-- `GetHistoryMessages`: `Load` the `"messages"` entry (ignoring the ok
flag) and type-assert it.  `none` models the panic of the assertion when
the entry is absent (`nil.([]map[string]string)`) or has another type. -/
def GetHistoryMessages (c : Chat) : Option (List Message) :=
  match mapLoad c.data "messages" with
  | some (.msgList msgs) => some msgs
  | _ => none

/-- The collaborators `NewChat` calls, in stage order: `json.Marshal` of
the payload map, `http.NewRequest` on the body, `http.Client.Do` given the
`Authorization` header value and the body, `io.ReadAll` of the response
body handle, `json.Unmarshal` of the bytes.  Each `Except.error` is the
non-nil Go error of that stage, propagated verbatim. -/
structure Env where
  marshal : DataMap → Except String String
  newRequest : String → Except String Unit
  doRequest : String → String → Except String String
  readAll : String → Except String String
  unmarshal : String → Except String ChatResponse

/-- The outcome of a call that can return a value, return a Go error, or
panic. -/
inductive Outcome (α : Type) where
  | ok (a : α)
  | err (e : String)
  | panicked (msg : String)
deriving Repr, DecidableEq

/-- The `c.data.Range` loop of `NewChat`: fold every binding of the store
into the initially empty local map `mapVal`. -/
def rangeCopy (d : DataMap) : DataMap :=
  d.foldl (fun m p => mapStore m p.1 p.2) []

/-- The fold of step 6 of `NewChat`: one `AddMessageAsAssistant` per
choice, in index order.  `none` propagates the (unreachable) panic of
`addMessage`. -/
def foldAssistant (c : Chat) : List Choice → Option Chat
  | [] => some c
  | ch :: rest =>
      match AddMessageAsAssistant c ch.msg.content with
      | some c' => foldAssistant c' rest
      | none => none

/-- `NewChat` from chat.go, stage for stage:
`RLock`; snapshot `data` by `Range`; `json.Marshal` (error returns with
the read lock still held); `http.NewRequest` (likewise); read the key
with `c.key.Load().(string)` — a panic when no key was ever stored;
`client.Do`; `io.ReadAll`; `json.Unmarshal` (each error again returning
with the lock held); `RUnlock`; the `res.Choices == nil` check returning
the `no response` error; then the assistant append-back loop. -/
def NewChat (env : Env) (c : Chat) : Outcome ChatResponse × Chat :=
  let c1 : Chat := { c with readers := c.readers + 1 }
  let mapVal := rangeCopy c1.data
  match env.marshal mapVal with
  | .error e => (.err e, c1)
  | .ok jsonBody =>
    match env.newRequest jsonBody with
    | .error e => (.err e, c1)
    | .ok _ =>
      match c1.key with
      | none => (.panicked "interface conversion: interface is nil, not string", c1)
      | some k =>
        let auth := "Bearer " ++ k
        match env.doRequest auth jsonBody with
        | .error e => (.err e, c1)
        | .ok respBody =>
          match env.readAll respBody with
          | .error e => (.err e, c1)
          | .ok body =>
            match env.unmarshal body with
            | .error e => (.err e, c1)
            | .ok res =>
              let c2 : Chat := { c1 with readers := c1.readers - 1 }
              match res.choices with
              | none => (.err "no response", c2)
              | some chs =>
                match foldAssistant c2 chs with
                | some c3 => (.ok res, c3)
                | none => (.panicked "interface conversion in addMessage", c2)

/-- The history a state holds: the `"messages"` entry when present (empty
when absent).  Statement-side accessor for the theorems below. -/
def historyOfData (d : DataMap) : List Message :=
  match mapLoad d "messages" with
  | some (.msgList msgs) => msgs
  | _ => []

/-- The history of a session state. -/
def historyOf (c : Chat) : List Message := historyOfData c.data

/-- The `"messages"` entry, when present, holds a `[]map[string]string`
value — true of every state reachable through the API, which only ever
stores `msgList` values there. -/
def msgsWF (d : DataMap) : Bool :=
  match mapLoad d "messages" with
  | some (.msgList _) => true
  | some _ => false
  | none => true

/-- Whether the map binds the key. -/
def keyMem (k : String) : DataMap → Bool
  | [] => false
  | (k', _) :: rest => if k' = k then true else keyMem k rest

/-- No key is bound twice — true of every reachable state, since `Store`
replaces in place. -/
def nodupKeys : DataMap → Bool
  | [] => true
  | (k, _) :: rest => !keyMem k rest && nodupKeys rest

/-! ## Lemmas about the map operations -/

theorem mapLoad_mapStore_self (d : DataMap) (k : String) (v : GoValue) :
    mapLoad (mapStore d k v) k = some v := by
  induction d with
  | nil => simp [mapStore, mapLoad]
  | cons p rest ih =>
    obtain ⟨k', v'⟩ := p
    by_cases h : k' = k <;> simp [mapStore, mapLoad, h, ih]

theorem mapLoad_mapStore_ne (d : DataMap) (k k' : String) (v : GoValue)
    (h : k' ≠ k) : mapLoad (mapStore d k v) k' = mapLoad d k' := by
  induction d with
  | nil => simp [mapStore, mapLoad, Ne.symm h]
  | cons p rest ih =>
    obtain ⟨ka, va⟩ := p
    by_cases hk : ka = k
    · subst hk
      simp [mapStore, mapLoad, Ne.symm h]
    · simp [mapStore, mapLoad, hk, ih]

theorem mapStore_mapStore_same (d : DataMap) (k : String) (v : GoValue) :
    mapStore (mapStore d k v) k v = mapStore d k v := by
  induction d with
  | nil => simp [mapStore]
  | cons p rest ih =>
    obtain ⟨ka, va⟩ := p
    by_cases hk : ka = k <;> simp [mapStore, hk, ih]

theorem keyMem_mapStore (d : DataMap) (a k : String) (v : GoValue) :
    keyMem a (mapStore d k v) = (if k = a then true else keyMem a d) := by
  induction d with
  | nil => simp [mapStore, keyMem]
  | cons p rest ih =>
    obtain ⟨ka, va⟩ := p
    by_cases hk : ka = k
    · subst hk
      by_cases hka : ka = a <;> simp [mapStore, keyMem, hka]
    · by_cases hka : ka = a
      · subst hka
        have : ¬ k = ka := fun h => hk h.symm
        simp [mapStore, keyMem, hk, this]
      · simp [mapStore, keyMem, hk, hka, ih]

theorem nodupKeys_mapStore (d : DataMap) (k : String) (v : GoValue)
    (h : nodupKeys d = true) : nodupKeys (mapStore d k v) = true := by
  induction d with
  | nil => simp [mapStore, nodupKeys, keyMem]
  | cons p rest ih =>
    obtain ⟨ka, va⟩ := p
    simp only [nodupKeys, Bool.and_eq_true, Bool.not_eq_true'] at h
    by_cases hk : ka = k
    · subst hk
      simp [mapStore, nodupKeys, h.1, h.2]
    · have hk' : ¬ k = ka := fun hh => hk hh.symm
      simp [mapStore, nodupKeys, hk, keyMem_mapStore, ih h.2, hk', h.1]

theorem mapStore_of_keyMem_false (d : DataMap) (k : String) (v : GoValue)
    (h : keyMem k d = false) : mapStore d k v = d ++ [(k, v)] := by
  induction d with
  | nil => simp [mapStore]
  | cons p rest ih =>
    obtain ⟨ka, va⟩ := p
    simp only [keyMem] at h
    by_cases hk : ka = k
    · simp [hk] at h
    · simp only [if_neg hk] at h
      simp [mapStore, hk, ih h]

theorem keyMem_append (a : String) (d1 d2 : DataMap) :
    keyMem a (d1 ++ d2) = (keyMem a d1 || keyMem a d2) := by
  induction d1 with
  | nil => simp [keyMem]
  | cons p rest ih =>
    obtain ⟨ka, va⟩ := p
    by_cases hk : ka = a <;> simp [keyMem, hk, ih]

theorem keyMem_false_of_nodup_head (k : String) (v : GoValue) (rest : DataMap)
    (h : nodupKeys ((k, v) :: rest) = true) :
    keyMem k rest = false ∧ nodupKeys rest = true := by
  simpa [nodupKeys, Bool.and_eq_true, Bool.not_eq_true'] using h

theorem ne_of_keyMem_false (d : DataMap) (q : String × GoValue) (k : String)
    (hq : q ∈ d) (h : keyMem k d = false) : ¬ k = q.1 := by
  induction d with
  | nil => simp at hq
  | cons p rest ih =>
    simp only [keyMem] at h
    by_cases hp : p.1 = k
    · simp [hp] at h
    · simp only [if_neg hp] at h
      rcases List.mem_cons.mp hq with hq | hq
      · intro hk
        exact hp (by rw [hq] at hk; exact hk.symm)
      · exact ih hq h

theorem foldl_mapStore_eq (d : DataMap) : ∀ acc : DataMap,
    (∀ p ∈ d, keyMem p.1 acc = false) → nodupKeys d = true →
    List.foldl (fun m p => mapStore m p.1 p.2) acc d = acc ++ d := by
  induction d with
  | nil => intro acc _ _; simp
  | cons p rest ih =>
    intro acc hmem hnd
    obtain ⟨k, v⟩ := p
    obtain ⟨hkm, hrest⟩ := keyMem_false_of_nodup_head k v rest hnd
    have hacc : keyMem k acc = false := hmem (k, v) (by simp)
    have hstep : mapStore acc k v = acc ++ [(k, v)] :=
      mapStore_of_keyMem_false acc k v hacc
    have hmem' : ∀ q ∈ rest, keyMem q.1 (acc ++ [(k, v)]) = false := by
      intro q hq
      have h1 : keyMem q.1 acc = false := hmem q (by simp [hq])
      have hne : ¬ k = q.1 := ne_of_keyMem_false rest q k hq hkm
      have h2 : keyMem q.1 [(k, v)] = false := by simp [keyMem, hne]
      simp [keyMem_append, h1, h2]
    calc List.foldl (fun m p => mapStore m p.1 p.2) acc ((k, v) :: rest)
        = List.foldl (fun m p => mapStore m p.1 p.2) (acc ++ [(k, v)]) rest := by
          simp [hstep]
      _ = (acc ++ [(k, v)]) ++ rest := ih (acc ++ [(k, v)]) hmem' hrest
      _ = acc ++ (k, v) :: rest := by simp

theorem rangeCopy_eq (d : DataMap) (h : nodupKeys d = true) : rangeCopy d = d := by
  have := foldl_mapStore_eq d [] (by intro p _; simp [keyMem]) h
  simpa [rangeCopy] using this

/-! ## Lemmas about the session operations -/

theorem addMessage_spec (c : Chat) (role content : String)
    (h : msgsWF c.data = true) :
    ∃ c', addMessage c role content = some c' ∧
      historyOf c' = historyOf c ++ [{ role := role, content := content }] ∧
      msgsWF c'.data = true ∧
      c'.key = c.key ∧ c'.readers = c.readers ∧
      (∀ k, k ≠ "messages" → mapLoad c'.data k = mapLoad c.data k) ∧
      (nodupKeys c.data = true → nodupKeys c'.data = true) ∧
      mapLoad c'.data "messages" =
        some (.msgList (historyOf c ++ [{ role := role, content := content }])) := by
  cases hm : mapLoad c.data "messages" with
  | none =>
    have hload := mapLoad_mapStore_self c.data "messages" (.msgList [])
    have heq : addMessage c role content = some { c with data := mapStore (mapStore c.data "messages" (.msgList [])) "messages" (.msgList ([] ++ [{ role := role, content := content }])) } := by
      simp only [addMessage, hm, hload]
    refine ⟨_, heq, ?_, ?_, rfl, rfl, ?_, ?_, ?_⟩
    · simp [historyOf, historyOfData, hm, mapLoad_mapStore_self]
    · simp [msgsWF, mapLoad_mapStore_self]
    · intro k hk
      have e1 := mapLoad_mapStore_ne (mapStore c.data "messages" (.msgList []))
        "messages" k (.msgList ([] ++ [{ role := role, content := content }])) hk
      have e2 := mapLoad_mapStore_ne c.data "messages" k (.msgList []) hk
      simp only [e1, e2]
    · intro hn
      exact nodupKeys_mapStore _ _ _ (nodupKeys_mapStore _ _ _ hn)
    · simp [historyOf, historyOfData, hm, mapLoad_mapStore_self]
  | some v =>
    cases v with
    | msgList msgs =>
      have heq : addMessage c role content = some { c with data := mapStore c.data "messages" (.msgList (msgs ++ [{ role := role, content := content }])) } := by
        simp only [addMessage, hm]
      refine ⟨_, heq, ?_, ?_, rfl, rfl, ?_, ?_, ?_⟩
      · simp [historyOf, historyOfData, hm, mapLoad_mapStore_self]
      · simp [msgsWF, mapLoad_mapStore_self]
      · intro k hk
        have e1 := mapLoad_mapStore_ne c.data "messages" k
          (.msgList (msgs ++ [{ role := role, content := content }])) hk
        simp only [e1]
      · intro hn
        exact nodupKeys_mapStore _ _ _ hn
      · simp [historyOf, historyOfData, hm, mapLoad_mapStore_self]
    | str s => simp [msgsWF, hm] at h
    | float f => simp [msgsWF, hm] at h
    | int n => simp [msgsWF, hm] at h
    | bool b => simp [msgsWF, hm] at h
    | strList l => simp [msgsWF, hm] at h
    | intMap m => simp [msgsWF, hm] at h

theorem foldAssistant_spec (chs : List Choice) : ∀ c : Chat,
    msgsWF c.data = true →
    ∃ c', foldAssistant c chs = some c' ∧
      historyOf c' = historyOf c ++
        chs.map (fun ch => { role := "assistant", content := ch.msg.content }) ∧
      msgsWF c'.data = true ∧ c'.key = c.key ∧ c'.readers = c.readers := by
  induction chs with
  | nil => exact fun c h => ⟨c, rfl, by simp, h, rfl, rfl⟩
  | cons ch rest ih =>
    intro c h
    obtain ⟨c1, h1, hh1, hw1, hk1, hr1, _, _, _⟩ :=
      addMessage_spec c "assistant" ch.msg.content h
    obtain ⟨c2, h2, hh2, hw2, hk2, hr2⟩ := ih c1 hw1
    refine ⟨c2, ?_, ?_, hw2, hk2.trans hk1, hr2.trans hr1⟩
    · simp only [foldAssistant, AddMessageAsAssistant, h1, h2]
    · simp [hh2, hh1]

/-- One client-side append, through one of the three role-specific
operations of chat.go. -/
inductive AppendCall where
  | user (content : String)
  | system (content : String)
  | assistant (content : String)
deriving Repr, DecidableEq

/-- Run one append call. -/
def runAppend (c : Chat) : AppendCall → Option Chat
  | .user s => AddMessageAsUser c s
  | .system s => AddMessageAsSystem c s
  | .assistant s => AddMessageAsAssistant c s

/-- Run a sequence of append calls, in call order. -/
def runAppends (c : Chat) : List AppendCall → Option Chat
  | [] => some c
  | a :: rest =>
      match runAppend c a with
      | some c' => runAppends c' rest
      | none => none

/-- The `Message` an append call adds. -/
def callMessage : AppendCall → Message
  | .user s => { role := "user", content := s }
  | .system s => { role := "system", content := s }
  | .assistant s => { role := "assistant", content := s }

theorem runAppend_spec (c : Chat) (a : AppendCall)
    (h : msgsWF c.data = true) :
    ∃ c', runAppend c a = some c' ∧
      historyOf c' = historyOf c ++ [callMessage a] ∧
      msgsWF c'.data = true ∧
      (nodupKeys c.data = true → nodupKeys c'.data = true) := by
  cases a with
  | user s =>
    obtain ⟨c', h1, h2, h3, _, _, _, h7, _⟩ := addMessage_spec c "user" s h
    exact ⟨c', h1, h2, h3, h7⟩
  | system s =>
    obtain ⟨c', h1, h2, h3, _, _, _, h7, _⟩ := addMessage_spec c "system" s h
    exact ⟨c', h1, h2, h3, h7⟩
  | assistant s =>
    obtain ⟨c', h1, h2, h3, _, _, _, h7, _⟩ := addMessage_spec c "assistant" s h
    exact ⟨c', h1, h2, h3, h7⟩

theorem runAppends_spec (calls : List AppendCall) : ∀ c : Chat,
    msgsWF c.data = true → nodupKeys c.data = true →
    ∃ c', runAppends c calls = some c' ∧
      historyOf c' = historyOf c ++ calls.map callMessage ∧
      msgsWF c'.data = true ∧ nodupKeys c'.data = true := by
  induction calls with
  | nil => exact fun c h hn => ⟨c, rfl, by simp, h, hn⟩
  | cons a rest ih =>
    intro c h hn
    obtain ⟨c1, h1, hh1, hw1, hnd1⟩ := runAppend_spec c a h
    obtain ⟨c2, h2, hh2, hw2, hnd2⟩ := ih c1 hw1 (hnd1 hn)
    refine ⟨c2, ?_, ?_, hw2, hnd2⟩
    · simp only [runAppends, h1, h2]
    · simp [hh2, hh1]

/-! ## Concrete collaborators and sessions for evaluating the model -/

/-- A decoded response carrying one assistant choice. -/
def okResponse : ChatResponse :=
  { id := "chatcmpl-1", object := "chat.completion", created := 1700000000,
    choices := some [{ index := 0,
                       msg := { role := "assistant", content := "X" },
                       finishReason := "stop" }],
    usages := { promptTokens := 1, completionTokens := 1, totalTokens := 2 } }

/-- Collaborators that all succeed, decoding `okResponse`. -/
def envOk : Env :=
  { marshal := fun _ => .ok "payload-bytes",
    newRequest := fun _ => .ok (),
    doRequest := fun _ _ => .ok "response-handle",
    readAll := fun s => .ok s,
    unmarshal := fun _ => .ok okResponse }

/-- A decoded response whose choices field was absent (nil slice). -/
def nilChoicesResponse : ChatResponse := { okResponse with choices := none }

/-- A decoded response whose choices field is present but an empty array. -/
def emptyChoicesResponse : ChatResponse := { okResponse with choices := some [] }

/-- Collaborators that succeed but decode a nil-choices response. -/
def envNilChoices : Env := { envOk with unmarshal := fun _ => .ok nilChoicesResponse }

/-- Collaborators that succeed but decode an empty-array-choices response. -/
def envEmptyChoices : Env := { envOk with unmarshal := fun _ => .ok emptyChoicesResponse }

/-- Collaborators whose transport (`client.Do`) fails. -/
def envTransportFail : Env :=
  { envOk with doRequest := fun _ _ => .error "connection refused" }

/-- A session whose credential was set and nothing else done. -/
def chatWithKey : Chat := SetAuthorizationKey freshChat "sk-test"

/-! ## The claims -/

/-- C1, counterexample: a decoded response whose `choices` field is present
as an empty array does not produce the `no response` error, contrary to the
claim — `NewChat` checks `res.Choices == nil` only, so it succeeds,
returning the decoded result and appending nothing. -/
theorem newChat_empty_array_choices_succeeds :
    NewChat envEmptyChoices chatWithKey = (.ok emptyChoicesResponse, chatWithKey) ∧
    (NewChat envEmptyChoices chatWithKey).1 ≠ .err "no response" := by
  refine ⟨rfl, ?_⟩
  decide

/-- C1, amended: when every collaborator stage succeeds, a decoded response
whose choices list is absent (a nil slice) makes `NewChat` return the
`no response` error with the session left exactly as it was; a choices
list present as an empty array instead makes `NewChat` succeed, returning
the decoded result, still appending nothing and leaving the session
unchanged. -/
theorem newChat_zero_choices_behavior (env : Env) (c : Chat)
    (k b raw body : String) (res : ChatResponse)
    (hm : env.marshal (rangeCopy c.data) = .ok b)
    (hn : env.newRequest b = .ok ())
    (hk : c.key = some k)
    (hd : env.doRequest ("Bearer " ++ k) b = .ok raw)
    (hr : env.readAll raw = .ok body)
    (hu : env.unmarshal body = .ok res) :
    (res.choices = none → NewChat env c = (.err "no response", c)) ∧
    (res.choices = some [] → NewChat env c = (.ok res, c)) := by
  constructor
  · intro hc
    simp only [NewChat, hm, hn, hk, hd, hr, hu, hc]
    simp
    rw [← hk]
  · intro hc
    simp only [NewChat, hm, hn, hk, hd, hr, hu, hc, foldAssistant]
    simp
    rw [← hk]

/-- C1, witness for the amended theorem at a concrete session and
collaborators. -/
theorem newChat_zero_choices_behavior_witness :
    NewChat envNilChoices chatWithKey = (.err "no response", chatWithKey) :=
  (newChat_zero_choices_behavior envNilChoices chatWithKey "sk-test"
    "payload-bytes" "response-handle" "response-handle" nilChoicesResponse
    rfl rfl rfl rfl rfl rfl).1 rfl

/-- C2 (a bug in the code): on a session whose credential was never set,
`NewChat` does not fail with an error — the nil type assertion
`c.key.Load().(string)` panics, after the marshal and request-creation
stages succeeded, and the panic propagates with the read lock still held
(`readers` ends at 1) — contradicting the claimed no-panic failure. -/
theorem newChat_no_credential_panics :
    NewChat envOk freshChat =
      (.panicked "interface conversion: interface is nil, not string",
       { freshChat with readers := 1 }) := rfl

/-- C3 (a bug in the code): when the transport fails, `NewChat` returns
the error with the history read lock still held — `readers` goes from 0
to 1 and no unlock runs on this return path, since chat.go only calls
`RUnlock` after a successful decode and defers no unlock.  The same holds
on the marshal, request-creation, body-read and decode failure paths. -/
theorem newChat_transport_error_leaks_read_lock :
    chatWithKey.readers = 0 ∧
    NewChat envTransportFail chatWithKey =
      (.err "connection refused", { chatWithKey with readers := 1 }) :=
  ⟨rfl, rfl⟩

/-- C4: whenever `NewChat` returns a Go error — serialization, request
creation, transport, body read, decode, or the nil-choices check — the
session's stored data, and with it the message history, and the credential
are exactly what they were at entry, and the returned error is precisely
the error produced by the failing stage (or the literal `no response`
error of the nil-choices check). -/
theorem newChat_error_no_mutation (env : Env) (c : Chat) (e : String) (c' : Chat)
    (h : NewChat env c = (.err e, c')) :
    c'.data = c.data ∧ c'.key = c.key ∧ historyOf c' = historyOf c ∧
    (env.marshal (rangeCopy c.data) = .error e ∨
     (∃ b, env.marshal (rangeCopy c.data) = .ok b ∧ env.newRequest b = .error e) ∨
     (∃ b k, env.marshal (rangeCopy c.data) = .ok b ∧ env.newRequest b = .ok () ∧
        c.key = some k ∧ env.doRequest ("Bearer " ++ k) b = .error e) ∨
     (∃ b k raw, env.marshal (rangeCopy c.data) = .ok b ∧ env.newRequest b = .ok () ∧
        c.key = some k ∧ env.doRequest ("Bearer " ++ k) b = .ok raw ∧
        env.readAll raw = .error e) ∨
     (∃ b k raw body, env.marshal (rangeCopy c.data) = .ok b ∧
        env.newRequest b = .ok () ∧ c.key = some k ∧
        env.doRequest ("Bearer " ++ k) b = .ok raw ∧
        env.readAll raw = .ok body ∧ env.unmarshal body = .error e) ∨
     (∃ b k raw body res, env.marshal (rangeCopy c.data) = .ok b ∧
        env.newRequest b = .ok () ∧ c.key = some k ∧
        env.doRequest ("Bearer " ++ k) b = .ok raw ∧
        env.readAll raw = .ok body ∧ env.unmarshal body = .ok res ∧
        res.choices = none ∧ e = "no response")) := by
  cases hm : env.marshal (rangeCopy c.data) with
  | error e0 =>
    simp only [NewChat, hm, Prod.mk.injEq, Outcome.err.injEq] at h
    obtain ⟨he, hc⟩ := h
    subst he; subst hc
    exact ⟨rfl, rfl, rfl, Or.inl rfl⟩
  | ok b0 =>
    cases hn : env.newRequest b0 with
    | error e0 =>
      simp only [NewChat, hm, hn, Prod.mk.injEq, Outcome.err.injEq] at h
      obtain ⟨he, hc⟩ := h
      subst he; subst hc
      exact ⟨rfl, rfl, rfl, Or.inr (Or.inl ⟨b0, rfl, hn⟩)⟩
    | ok u =>
      cases u
      cases hk : c.key with
      | none => simp [NewChat, hm, hn, hk] at h
      | some k0 =>
        cases hd : env.doRequest ("Bearer " ++ k0) b0 with
        | error e0 =>
          simp only [NewChat, hm, hn, hk, hd, Prod.mk.injEq, Outcome.err.injEq] at h
          obtain ⟨he, hc⟩ := h
          subst he; subst hc
          exact ⟨rfl, rfl, rfl, Or.inr (Or.inr (Or.inl ⟨b0, k0, rfl, hn, rfl, hd⟩))⟩
        | ok raw0 =>
          cases hr : env.readAll raw0 with
          | error e0 =>
            simp only [NewChat, hm, hn, hk, hd, hr, Prod.mk.injEq,
              Outcome.err.injEq] at h
            obtain ⟨he, hc⟩ := h
            subst he; subst hc
            exact ⟨rfl, rfl, rfl,
              Or.inr (Or.inr (Or.inr (Or.inl ⟨b0, k0, raw0, rfl, hn, rfl, hd, hr⟩)))⟩
          | ok body0 =>
            cases hu : env.unmarshal body0 with
            | error e0 =>
              simp only [NewChat, hm, hn, hk, hd, hr, hu, Prod.mk.injEq,
                Outcome.err.injEq] at h
              obtain ⟨he, hc⟩ := h
              subst he; subst hc
              exact ⟨rfl, rfl, rfl, Or.inr (Or.inr (Or.inr (Or.inr (Or.inl
                ⟨b0, k0, raw0, body0, rfl, hn, rfl, hd, hr, hu⟩))))⟩
            | ok res0 =>
              cases hco : res0.choices with
              | none =>
                simp only [NewChat, hm, hn, hk, hd, hr, hu, hco, Prod.mk.injEq,
                  Outcome.err.injEq] at h
                obtain ⟨he, hc⟩ := h
                subst hc
                exact ⟨rfl, rfl, rfl, Or.inr (Or.inr (Or.inr (Or.inr (Or.inr
                  ⟨b0, k0, raw0, body0, res0, rfl, hn, rfl, hd, hr, hu, hco, he.symm⟩))))⟩
              | some chs =>
                simp only [NewChat, hm, hn, hk, hd, hr, hu, hco] at h
                split at h <;> simp at h

/-- C4, witness: the transport-failure collaborators at a concrete
session — the returned state's data equals the entry data. -/
theorem newChat_error_no_mutation_witness :
    ({ chatWithKey with readers := 1 } : Chat).data = chatWithKey.data :=
  (newChat_error_no_mutation envTransportFail chatWithKey "connection refused"
    { chatWithKey with readers := 1 } rfl).1

/-- C5: a fully successful round trip whose decoded response carries
k ≥ 1 choices returns the decoded result and appends exactly the k
choices' message contents to the history, in the choices' order, each
tagged with role assistant; the read lock is balanced at return. -/
theorem newChat_success_folds_choices (env : Env) (c : Chat)
    (k b raw body : String) (res : ChatResponse) (chs : List Choice)
    (hwf : msgsWF c.data = true)
    (hm : env.marshal (rangeCopy c.data) = .ok b)
    (hn : env.newRequest b = .ok ())
    (hk : c.key = some k)
    (hd : env.doRequest ("Bearer " ++ k) b = .ok raw)
    (hr : env.readAll raw = .ok body)
    (hu : env.unmarshal body = .ok res)
    (hc : res.choices = some chs)
    (hlen : 0 < chs.length) :
    (NewChat env c).1 = .ok res ∧
    historyOf (NewChat env c).2 = historyOf c ++
      chs.map (fun ch => { role := "assistant", content := ch.msg.content }) ∧
    (NewChat env c).2.readers = c.readers := by
  have hc2 : ({ c with key := some k, readers := c.readers + 1 - 1 } : Chat) = c := by
    rw [← hk]
    simp
  obtain ⟨c3, hf, hh, hw3, hk3, hr3⟩ := foldAssistant_spec chs c hwf
  simp only [NewChat, hm, hn, hk, hd, hr, hu, hc, hc2, hf]
  exact ⟨trivial, hh, hr3⟩

/-- C5, witness: the all-success collaborators decoding one assistant
choice at a concrete session with credential set. -/
theorem newChat_success_folds_choices_witness :
    (NewChat envOk chatWithKey).1 = .ok okResponse ∧
    historyOf (NewChat envOk chatWithKey).2 = historyOf chatWithKey ++
      ([{ index := 0, msg := { role := "assistant", content := "X" },
          finishReason := "stop" }] : List Choice).map
        (fun ch => { role := "assistant", content := ch.msg.content }) ∧
    (NewChat envOk chatWithKey).2.readers = chatWithKey.readers :=
  newChat_success_folds_choices envOk chatWithKey "sk-test" "payload-bytes"
    "response-handle" "response-handle" okResponse
    [{ index := 0, msg := { role := "assistant", content := "X" },
       finishReason := "stop" }]
    rfl rfl rfl rfl rfl rfl rfl rfl (by decide)

/-- C6: history grows only by appending at the tail — each append (all
three role-specific operations resolve to the one shared `addMessage`)
preserves the existing messages and their order and adds exactly one
role/content entry at the end — and for any sequence of N append calls
issued before a send, the `Range` snapshot `NewChat` would serialize
holds exactly those N messages in call order. -/
theorem history_append_only_and_snapshot :
    (∀ (c : Chat) (role content : String), msgsWF c.data = true →
      ∃ c', addMessage c role content = some c' ∧
        historyOf c' = historyOf c ++ [{ role := role, content := content }]) ∧
    (∀ (c : Chat) (content : String),
      AddMessageAsUser c content = addMessage c "user" content ∧
      AddMessageAsSystem c content = addMessage c "system" content ∧
      AddMessageAsAssistant c content = addMessage c "assistant" content) ∧
    (∀ calls : List AppendCall,
      ∃ c', runAppends freshChat calls = some c' ∧
        historyOfData (rangeCopy c'.data) = calls.map callMessage) := by
  refine ⟨?_, fun c content => ⟨rfl, rfl, rfl⟩, ?_⟩
  · intro c role content h
    obtain ⟨c', h1, h2, _⟩ := addMessage_spec c role content h
    exact ⟨c', h1, h2⟩
  · intro calls
    obtain ⟨c', h1, h2, hw, hnd⟩ := runAppends_spec calls freshChat rfl rfl
    refine ⟨c', h1, ?_⟩
    rw [rangeCopy_eq c'.data hnd]
    simpa [historyOf, historyOfData, freshChat, mapLoad] using h2

/-- C7: `SetAuthorizationKey` stores the given key as the session
credential and, as a side effect, sets the `model` parameter slot to the
fixed identifier `gpt-3.5-turbo`; the message history is untouched. -/
theorem setAuthorizationKey_sets_key_and_model (c : Chat) (k : String) :
    (SetAuthorizationKey c k).key = some k ∧
    mapLoad (SetAuthorizationKey c k).data "model" = some (.str "gpt-3.5-turbo") ∧
    historyOf (SetAuthorizationKey c k) = historyOf c := by
  refine ⟨rfl, mapLoad_mapStore_self c.data "model" (.str "gpt-3.5-turbo"), ?_⟩
  have e := mapLoad_mapStore_ne c.data "model" "messages"
    (.str "gpt-3.5-turbo") (by decide)
  simp [historyOf, historyOfData, SetAuthorizationKey, e]

/-- C8: the payload `NewChat` serializes is exactly the stored slots: the
`Range` snapshot of a duplicate-free store (all reachable stores are)
reproduces it verbatim, so the payload's key set equals the stored key
set; on the concrete session holding only the model slot (set by the
credential assignment) and one appended message, the payload keys are
exactly `model` and `messages`, with no defaulted slots, and before the
append they are exactly `model`. -/
theorem payload_keys_exactly_stored_slots :
    (∀ c : Chat, nodupKeys c.data = true → rangeCopy c.data = c.data) ∧
    (∀ c : Chat, nodupKeys c.data = true →
      keysOf (rangeCopy c.data) = keysOf c.data) ∧
    keysOf (rangeCopy chatWithKey.data) = ["model"] ∧
    (∃ c', AddMessageAsUser chatWithKey "hello" = some c' ∧
      keysOf (rangeCopy c'.data) = ["model", "messages"]) := by
  refine ⟨fun c h => rangeCopy_eq c.data h,
    fun c h => by rw [rangeCopy_eq c.data h], by decide, ?_⟩
  exact ⟨{ data := [("model", .str "gpt-3.5-turbo"),
             ("messages", .msgList [{ role := "user", content := "hello" }])],
           key := some "sk-test", readers := 0 }, by decide, by decide⟩

/-- A setter that stores value `v` into slot `key` behaves as an
idempotent overwrite of that one slot: storing twice equals storing once,
the history entry (any slot other than `messages`) is untouched, the slot
reads back as `v`, and every other slot is unchanged. -/
theorem setterSlot_spec (c : Chat) (key : String) (v : GoValue)
    (hk : ¬ key = "messages") :
    mapStore (mapStore c.data key v) key v = mapStore c.data key v ∧
    historyOfData (mapStore c.data key v) = historyOfData c.data ∧
    mapLoad (mapStore c.data key v) key = some v ∧
    ∀ k', k' ≠ key → mapLoad (mapStore c.data key v) k' = mapLoad c.data k' := by
  refine ⟨mapStore_mapStore_same c.data key v, ?_,
    mapLoad_mapStore_self c.data key v, ?_⟩
  · have e := mapLoad_mapStore_ne c.data key "messages" v (fun hh => hk hh.symm)
    simp [historyOfData, e]
  · intro k' hk'
    exact mapLoad_mapStore_ne c.data key k' v hk'

/-- C9: every parameter setter is an idempotent overwrite of exactly one
named slot: setting the same value twice equals setting it once, the
written slot reads back the stored value, and the call leaves every other
parameter slot, the message history, the credential and the lock state
unchanged (`SetStopStr` and `SetStopArr` both own the single `stop`
slot). -/
theorem setters_idempotent_single_slot (c : Chat) (t p pp fp : Float64)
    (n mx : Int) (st : Bool) (s1 u : String) (s2 : List String)
    (lb : List (String × Int)) :
    (SetTemperature (SetTemperature c t) t = SetTemperature c t ∧
     (SetTemperature c t).key = c.key ∧
     (SetTemperature c t).readers = c.readers ∧
     historyOf (SetTemperature c t) = historyOf c ∧
     mapLoad (SetTemperature c t).data "temperature" = some (.float t) ∧
     (∀ k', k' ≠ "temperature" → mapLoad (SetTemperature c t).data k' = mapLoad c.data k')) ∧
    (SetTopP (SetTopP c p) p = SetTopP c p ∧
     (SetTopP c p).key = c.key ∧
     (SetTopP c p).readers = c.readers ∧
     historyOf (SetTopP c p) = historyOf c ∧
     mapLoad (SetTopP c p).data "top_p" = some (.float p) ∧
     (∀ k', k' ≠ "top_p" → mapLoad (SetTopP c p).data k' = mapLoad c.data k')) ∧
    (SetN (SetN c n) n = SetN c n ∧
     (SetN c n).key = c.key ∧
     (SetN c n).readers = c.readers ∧
     historyOf (SetN c n) = historyOf c ∧
     mapLoad (SetN c n).data "n" = some (.int n) ∧
     (∀ k', k' ≠ "n" → mapLoad (SetN c n).data k' = mapLoad c.data k')) ∧
    (SetStream (SetStream c st) st = SetStream c st ∧
     (SetStream c st).key = c.key ∧
     (SetStream c st).readers = c.readers ∧
     historyOf (SetStream c st) = historyOf c ∧
     mapLoad (SetStream c st).data "stream" = some (.bool st) ∧
     (∀ k', k' ≠ "stream" → mapLoad (SetStream c st).data k' = mapLoad c.data k')) ∧
    (SetStopStr (SetStopStr c s1) s1 = SetStopStr c s1 ∧
     (SetStopStr c s1).key = c.key ∧
     (SetStopStr c s1).readers = c.readers ∧
     historyOf (SetStopStr c s1) = historyOf c ∧
     mapLoad (SetStopStr c s1).data "stop" = some (.str s1) ∧
     (∀ k', k' ≠ "stop" → mapLoad (SetStopStr c s1).data k' = mapLoad c.data k')) ∧
    (SetStopArr (SetStopArr c s2) s2 = SetStopArr c s2 ∧
     (SetStopArr c s2).key = c.key ∧
     (SetStopArr c s2).readers = c.readers ∧
     historyOf (SetStopArr c s2) = historyOf c ∧
     mapLoad (SetStopArr c s2).data "stop" = some (.strList s2) ∧
     (∀ k', k' ≠ "stop" → mapLoad (SetStopArr c s2).data k' = mapLoad c.data k')) ∧
    (SetMaxTokens (SetMaxTokens c mx) mx = SetMaxTokens c mx ∧
     (SetMaxTokens c mx).key = c.key ∧
     (SetMaxTokens c mx).readers = c.readers ∧
     historyOf (SetMaxTokens c mx) = historyOf c ∧
     mapLoad (SetMaxTokens c mx).data "max_tokens" = some (.int mx) ∧
     (∀ k', k' ≠ "max_tokens" → mapLoad (SetMaxTokens c mx).data k' = mapLoad c.data k')) ∧
    (SetPresencePenalty (SetPresencePenalty c pp) pp = SetPresencePenalty c pp ∧
     (SetPresencePenalty c pp).key = c.key ∧
     (SetPresencePenalty c pp).readers = c.readers ∧
     historyOf (SetPresencePenalty c pp) = historyOf c ∧
     mapLoad (SetPresencePenalty c pp).data "presence_penalty" = some (.float pp) ∧
     (∀ k', k' ≠ "presence_penalty" → mapLoad (SetPresencePenalty c pp).data k' = mapLoad c.data k')) ∧
    (SetFrequencyPenalty (SetFrequencyPenalty c fp) fp = SetFrequencyPenalty c fp ∧
     (SetFrequencyPenalty c fp).key = c.key ∧
     (SetFrequencyPenalty c fp).readers = c.readers ∧
     historyOf (SetFrequencyPenalty c fp) = historyOf c ∧
     mapLoad (SetFrequencyPenalty c fp).data "frequency_penalty" = some (.float fp) ∧
     (∀ k', k' ≠ "frequency_penalty" → mapLoad (SetFrequencyPenalty c fp).data k' = mapLoad c.data k')) ∧
    (SetLogitBias (SetLogitBias c lb) lb = SetLogitBias c lb ∧
     (SetLogitBias c lb).key = c.key ∧
     (SetLogitBias c lb).readers = c.readers ∧
     historyOf (SetLogitBias c lb) = historyOf c ∧
     mapLoad (SetLogitBias c lb).data "logit_bias" = some (.intMap lb) ∧
     (∀ k', k' ≠ "logit_bias" → mapLoad (SetLogitBias c lb).data k' = mapLoad c.data k')) ∧
    (SetUser (SetUser c u) u = SetUser c u ∧
     (SetUser c u).key = c.key ∧
     (SetUser c u).readers = c.readers ∧
     historyOf (SetUser c u) = historyOf c ∧
     mapLoad (SetUser c u).data "user" = some (.str u) ∧
     (∀ k', k' ≠ "user" → mapLoad (SetUser c u).data k' = mapLoad c.data k')) :=
  ⟨
    (fun B => ⟨congrArg (fun d => ({ c with data := d } : Chat)) B.1, rfl, rfl,
      B.2.1, B.2.2.1, B.2.2.2⟩)
      (setterSlot_spec c "temperature" (.float t) (by decide)),
    (fun B => ⟨congrArg (fun d => ({ c with data := d } : Chat)) B.1, rfl, rfl,
      B.2.1, B.2.2.1, B.2.2.2⟩)
      (setterSlot_spec c "top_p" (.float p) (by decide)),
    (fun B => ⟨congrArg (fun d => ({ c with data := d } : Chat)) B.1, rfl, rfl,
      B.2.1, B.2.2.1, B.2.2.2⟩)
      (setterSlot_spec c "n" (.int n) (by decide)),
    (fun B => ⟨congrArg (fun d => ({ c with data := d } : Chat)) B.1, rfl, rfl,
      B.2.1, B.2.2.1, B.2.2.2⟩)
      (setterSlot_spec c "stream" (.bool st) (by decide)),
    (fun B => ⟨congrArg (fun d => ({ c with data := d } : Chat)) B.1, rfl, rfl,
      B.2.1, B.2.2.1, B.2.2.2⟩)
      (setterSlot_spec c "stop" (.str s1) (by decide)),
    (fun B => ⟨congrArg (fun d => ({ c with data := d } : Chat)) B.1, rfl, rfl,
      B.2.1, B.2.2.1, B.2.2.2⟩)
      (setterSlot_spec c "stop" (.strList s2) (by decide)),
    (fun B => ⟨congrArg (fun d => ({ c with data := d } : Chat)) B.1, rfl, rfl,
      B.2.1, B.2.2.1, B.2.2.2⟩)
      (setterSlot_spec c "max_tokens" (.int mx) (by decide)),
    (fun B => ⟨congrArg (fun d => ({ c with data := d } : Chat)) B.1, rfl, rfl,
      B.2.1, B.2.2.1, B.2.2.2⟩)
      (setterSlot_spec c "presence_penalty" (.float pp) (by decide)),
    (fun B => ⟨congrArg (fun d => ({ c with data := d } : Chat)) B.1, rfl, rfl,
      B.2.1, B.2.2.1, B.2.2.2⟩)
      (setterSlot_spec c "frequency_penalty" (.float fp) (by decide)),
    (fun B => ⟨congrArg (fun d => ({ c with data := d } : Chat)) B.1, rfl, rfl,
      B.2.1, B.2.2.1, B.2.2.2⟩)
      (setterSlot_spec c "logit_bias" (.intMap lb) (by decide)),
    (fun B => ⟨congrArg (fun d => ({ c with data := d } : Chat)) B.1, rfl, rfl,
      B.2.1, B.2.2.1, B.2.2.2⟩)
      (setterSlot_spec c "user" (.str u) (by decide))⟩

/-- C10: `GetHistoryMessages` of a session on which no message was ever
appended — in particular a freshly constructed one — finds no `messages`
entry and its type assertion fails (the `none` of the model, a panic in
Go) instead of returning an empty list; once at least one message has
been appended it returns the complete ordered history. -/
theorem getHistoryMessages_requires_prior_append :
    GetHistoryMessages freshChat = none ∧
    (∀ c : Chat, mapLoad c.data "messages" = none → GetHistoryMessages c = none) ∧
    (∀ (c : Chat) (role content : String), msgsWF c.data = true →
      ∃ c', addMessage c role content = some c' ∧
        GetHistoryMessages c' =
          some (historyOf c ++ [{ role := role, content := content }])) := by
  refine ⟨rfl, ?_, ?_⟩
  · intro c h
    simp [GetHistoryMessages, h]
  · intro c role content h
    obtain ⟨c', h1, _, _, _, _, _, _, h8⟩ := addMessage_spec c role content h
    exact ⟨c', h1, by simp [GetHistoryMessages, h8]⟩
